import Mathlib

/-!
Shallow embedding of the pyticc repository (a Python driver for the TI
CC1101 RF transceiver) and proofs about the claims of its specification.

The embedding follows the source files:
  * `src/pyticc/utils.py`  — bit-field codec (`byte_bit_value`, `bit_into_byte`);
  * `src/pyticc/base.py`   — SPI framing (`read_byte`, `write_byte`,
    `read_burst`, `write_burst`, `strobe`, `_get_address`, ...);
  * `src/pyticc/cc1101.py` — the CC1101 address table, register schema and
    the radio engine (`send_data`, `recv_data`, `modulation`, ...).

Python integers are modelled as `Nat` (byte values) or `Int` (schema
entries, where the source checks for negative values); Python exceptions
are modelled with `Except Exc`; the SPI bus is an abstract state machine
over a register file, and every executed `spi.xfer` call is recorded in a
trace so that theorems can speak about which bus exchanges happened.
-/

namespace Pyticc

/-- Python exceptions raised by the embedded code.  The last two are not
Python exceptions but markers of the embedding's boundary:
`nonTermination` marks exhaustion of the fuel that bounds the source's
unbounded `while` loops (the loops in `sidle` and `send_data`), and
`attributeOutsideTable` marks `getattr(self, name)` reaching an attribute
outside the static CCAddr address table — in the source that resolution
may yield an instance attribute (e.g. `spi_speed = 50000`), a bound
method, or raise `AttributeError` for an absent name; no register access
and no claim depends on such names, so the embedding stops at this marker
instead of modelling them. -/
inductive Exc where
  | valueError (msg : String)
  | nameError
  | indexError
  | keyError (k : String)
  | attributeOutsideTable (attr : String)
  | exception (msg : String)
  | nonTermination
deriving DecidableEq, Repr

deriving instance DecidableEq for Except

/-- Number of binary digits of a positive `n` (0 for 0), computed with a
fuel argument so the recursion is structural and kernel-reducible; any
`n ≤ fuel` is enough fuel, since the argument at least halves each step. -/
def binDigitsAux : Nat → Nat → Nat
  | _, 0 => 0
  | 0, _ + 1 => 0
  | fuel + 1, n + 1 => binDigitsAux fuel ((n + 1) / 2) + 1

/-- Length of `bin(n)[2:]` for a nonnegative Python int `n`
(`bin(0) = "0b0"` has one digit after the prefix). -/
def pyBinLen (n : Nat) : Nat := if n = 0 then 1 else binDigitsAux n n

/-- The digit list of `bin(n)[2:]`, most significant bit first. -/
def pyBinBits (n : Nat) : List Bool :=
  (List.range (pyBinLen n)).map (fun i => n.testBit (pyBinLen n - 1 - i))

/-- Python's `str.zfill`: left-pad a digit list with `'0'` up to `width`. -/
def zfill (l : List Bool) (width : Nat) : List Bool :=
  List.replicate (width - l.length) false ++ l

/-- `int("".join(digits), 2)` for a most-significant-bit-first digit list. -/
def bitsToNat (l : List Bool) : Nat :=
  l.foldl (fun acc b => 2 * acc + b.toNat) 0

/-- Embeds `byte_bit_value` of `src/pyticc/utils.py` (lines 2-35).
The schema is a pair `[index, bits]` of Python ints.  After the three
explicit checks the source computes `shift = 8 - (index + bits)` and
`mask = 0xFF >> (shift + index)` and returns `byte >> shift & mask`; when
`index + bits > 8` the shift is negative and Python's `>>` raises
`ValueError("negative shift count")`, which the embedding reproduces
(`shift + index = 8 - bits` is never negative at that point, so the mask
line itself cannot raise).  The `index == 0 and bits == 8` early return is
kept as in the source. -/
def byte_bit_value (byte : Nat) (schema : Int × Int) : Except Exc Nat :=
  let index := schema.1
  let bits := schema.2
  if index < 0 ∨ index > 7 then .error (.valueError "Schema index must be 0 thru 7")
  else if bits < 1 ∨ bits > 8 then .error (.valueError "Schema bits must be 1 thru 8")
  else if pyBinLen byte > 8 then .error (.valueError "Number too big. Not a byte value.")
  else if index = 0 ∧ bits = 8 then .ok byte
  else
    let shift : Int := 8 - (index + bits)
    let mask : Nat := 0xFF >>> (shift + index).toNat
    if shift < 0 then .error (.valueError "negative shift count")
    else .ok ((byte >>> shift.toNat) &&& mask)

/-- The `value` argument of `bit_into_byte`: either a Python int or a
string of binary digits such as `"1011"` (modelled as its digit list). -/
inductive BitsVal where
  | int (n : Nat)
  | str (bits : List Bool)
deriving DecidableEq, Repr

/-- The loop `for i in range(0, bits): orig_bits[index + i] = value_bits[i]`
of `bit_into_byte`, over the list of loop indices.  A read or a list
assignment outside the list bounds raises `IndexError`, as in Python. -/
def setLoop : List Bool → Nat → List Bool → List Nat → Except Exc (List Bool)
  | l, _, _, [] => .ok l
  | l, index, vbits, i :: rest =>
    if hv : i < vbits.length then
      if index + i < l.length then
        setLoop (l.set (index + i) vbits[i]) index vbits rest
      else .error .indexError
    else .error .indexError

/-- Embeds `bit_into_byte` of `src/pyticc/utils.py` (lines 38-71).
A string value is first converted with `int(value, 2)` (empty strings make
that call raise `ValueError`).  Note the source checks only that `byte` and
`value` fit in 8 bits — there is no check against `bits`; a too-wide value
makes `bin(value)[2:].zfill(bits)` longer than `bits` and the loop then
copies its first (most significant) `bits` digits. -/
def bit_into_byte (byte : Nat) (schema : Int × Int) (value : BitsVal) : Except Exc Nat :=
  match (match value with
         | .int n => Except.ok n
         | .str bits =>
             if bits.isEmpty then Except.error (Exc.valueError "invalid literal for int with base 2")
             else Except.ok (bitsToNat bits)) with
  | .error e => .error e
  | .ok v =>
    let index := schema.1
    let bits := schema.2
    if index < 0 ∨ index > 7 then .error (.valueError "Schema index must be 0 thru 7")
    else if bits < 1 ∨ bits > 8 then .error (.valueError "Schema bits must be 1 thru 8")
    else if pyBinLen byte > 8 ∨ pyBinLen v > 8 then
      .error (.valueError "Number too big. Not a byte value.")
    else
      let orig_bits := zfill (pyBinBits byte) 8
      let value_bits := zfill (pyBinBits v) bits.toNat
      match setLoop orig_bits index.toNat value_bits (List.range bits.toNat) with
      | .error e => .error e
      | .ok final => .ok (bitsToNat final)

/-! ## The SPI bus, the driver state, and `base.py` -/

/-- The chip-side register file the abstract bus transports to. -/
abbrev Regs := Nat → Nat

/-- The byte-oriented command bus (`spidev` in the source): one `xfer`
exchanges a byte list for a response and may change the chip state.  It is
kept abstract; theorems constrain it through hypotheses. -/
structure Bus where
  xfer : Regs → List Nat → List Nat × Regs

/-- Every executed bus exchange, in order: the byte lists sent. -/
abbrev Trace := List (List Nat)

/-- Driver-visible state: the chip registers and the exchange trace. -/
structure CCSt where
  regs : Regs
  trace : Trace

/-- A step of the embedded driver: it may raise, and it threads the state
(bus operations already performed stay performed when an exception is
raised later, as in Python). -/
abbrev CCM (α : Type) := CCSt → Except Exc α × CCSt

def ret {α : Type} (a : α) : CCM α := fun st => (.ok a, st)

def raise {α : Type} (e : Exc) : CCM α := fun st => (.error e, st)

def bindM {α β : Type} (x : CCM α) (f : α → CCM β) : CCM β := fun st =>
  match x st with
  | (.ok a, st2) => f a st2
  | (.error e, st2) => (.error e, st2)

def liftE {α : Type} (x : Except Exc α) : CCM α := fun st => (x, st)

/-! ## `cc1101.py`: the `CCAddr` address table -/

def WRITE_SINGLE_BYTE : Nat := 0x00
def WRITE_BURST : Nat := 0x40
def READ_SINGLE_BYTE : Nat := 0x80
def READ_BURST : Nat := 0xC0
def SRES : Nat := 0x30
def SFSTXON : Nat := 0x31
def SXOFF : Nat := 0x32
def SCAL : Nat := 0x33
def SRX : Nat := 0x34
def STX : Nat := 0x35
def SIDLE : Nat := 0x36
def SWOR : Nat := 0x38
def SPWD : Nat := 0x39
def SFRX : Nat := 0x3A
def SFTX : Nat := 0x3B
def SWORRST : Nat := 0x3C
def SNOP : Nat := 0x3D
def PATABLE : Nat := 0x3E
def TXFIFO : Nat := 0x3F
def RXFIFO : Nat := 0x3F
def PARTNUM : Nat := 0xF0
def VERSION : Nat := 0xF1
def FREQEST : Nat := 0xF2
def LQI : Nat := 0xF3
def RSSI : Nat := 0xF4
def MARCSTATE : Nat := 0xF5
def WORTIME1 : Nat := 0xF6
def WORTIME0 : Nat := 0xF7
def PKTSTATUS : Nat := 0xF8
def VCO_VC_DAC : Nat := 0xF9
def TXBYTES : Nat := 0xFA
def RXBYTES : Nat := 0xFB
def RCCTRL1_STATUS : Nat := 0xFC
def RCCTRL0_STATUS : Nat := 0xFD
def IOCFG2 : Nat := 0x00
def IOCFG1 : Nat := 0x01
def IOCFG0 : Nat := 0x02
def FIFOTHR : Nat := 0x03
def SYNC1 : Nat := 0x04
def SYNC0 : Nat := 0x05
def PKTLEN : Nat := 0x06
def PKTCTRL1 : Nat := 0x07
def PKTCTRL0 : Nat := 0x08
def ADDR : Nat := 0x09
def CHANNR : Nat := 0x0A
def FSCTRL1 : Nat := 0x0B
def FSCTRL0 : Nat := 0x0C
def FREQ2 : Nat := 0x0D
def FREQ1 : Nat := 0x0E
def FREQ0 : Nat := 0x0F
def MDMCFG4 : Nat := 0x10
def MDMCFG3 : Nat := 0x11
def MDMCFG2 : Nat := 0x12
def MDMCFG1 : Nat := 0x13
def MDMCFG0 : Nat := 0x14
def DEVIATN : Nat := 0x15
def MCSM2 : Nat := 0x16
def MCSM1 : Nat := 0x17
def MCSM0 : Nat := 0x18
def FOCCFG : Nat := 0x19
def BSCFG : Nat := 0x1A
def AGCCTRL2 : Nat := 0x1B
def AGCCTRL1 : Nat := 0x1C
def AGCCTRL0 : Nat := 0x1D
def WOREVT1 : Nat := 0x1E
def WOREVT0 : Nat := 0x1F
def WORCTRL : Nat := 0x20
def FREND1 : Nat := 0x21
def FREND0 : Nat := 0x22
def FSCAL3 : Nat := 0x23
def FSCAL2 : Nat := 0x24
def FSCAL1 : Nat := 0x25
def FSCAL0 : Nat := 0x26
def RCCTRL1 : Nat := 0x27
def RCCTRL0 : Nat := 0x28
def FSTEST : Nat := 0x29
def PTEST : Nat := 0x2A
def AGCTEST : Nat := 0x2B
def TEST2 : Nat := 0x2C
def TEST1 : Nat := 0x2D
def TEST0 : Nat := 0x2E

/-- The static address table of class `CCAddr` in `cc1101.py`, as a
partial map from attribute name to value.  This is only the table, not all
of `getattr`: the source object also carries instance attributes
(`spi_speed`, `osc_freq`, ...) and bound methods, which `getattr` resolves
without raising; `get_address` keeps those outside the model (see `Exc`).
Every register access in the source names a table entry. -/
def ccAttr : String → Option Nat
  | "WRITE_SINGLE_BYTE" => some WRITE_SINGLE_BYTE
  | "WRITE_BURST" => some WRITE_BURST
  | "READ_SINGLE_BYTE" => some READ_SINGLE_BYTE
  | "READ_BURST" => some READ_BURST
  | "SRES" => some SRES
  | "SFSTXON" => some SFSTXON
  | "SXOFF" => some SXOFF
  | "SCAL" => some SCAL
  | "SRX" => some SRX
  | "STX" => some STX
  | "SIDLE" => some SIDLE
  | "SWOR" => some SWOR
  | "SPWD" => some SPWD
  | "SFRX" => some SFRX
  | "SFTX" => some SFTX
  | "SWORRST" => some SWORRST
  | "SNOP" => some SNOP
  | "PATABLE" => some PATABLE
  | "TXFIFO" => some TXFIFO
  | "RXFIFO" => some RXFIFO
  | "PARTNUM" => some PARTNUM
  | "VERSION" => some VERSION
  | "FREQEST" => some FREQEST
  | "LQI" => some LQI
  | "RSSI" => some RSSI
  | "MARCSTATE" => some MARCSTATE
  | "WORTIME1" => some WORTIME1
  | "WORTIME0" => some WORTIME0
  | "PKTSTATUS" => some PKTSTATUS
  | "VCO_VC_DAC" => some VCO_VC_DAC
  | "TXBYTES" => some TXBYTES
  | "RXBYTES" => some RXBYTES
  | "RCCTRL1_STATUS" => some RCCTRL1_STATUS
  | "RCCTRL0_STATUS" => some RCCTRL0_STATUS
  | "IOCFG2" => some IOCFG2
  | "IOCFG1" => some IOCFG1
  | "IOCFG0" => some IOCFG0
  | "FIFOTHR" => some FIFOTHR
  | "SYNC1" => some SYNC1
  | "SYNC0" => some SYNC0
  | "PKTLEN" => some PKTLEN
  | "PKTCTRL1" => some PKTCTRL1
  | "PKTCTRL0" => some PKTCTRL0
  | "ADDR" => some ADDR
  | "CHANNR" => some CHANNR
  | "FSCTRL1" => some FSCTRL1
  | "FSCTRL0" => some FSCTRL0
  | "FREQ2" => some FREQ2
  | "FREQ1" => some FREQ1
  | "FREQ0" => some FREQ0
  | "MDMCFG4" => some MDMCFG4
  | "MDMCFG3" => some MDMCFG3
  | "MDMCFG2" => some MDMCFG2
  | "MDMCFG1" => some MDMCFG1
  | "MDMCFG0" => some MDMCFG0
  | "DEVIATN" => some DEVIATN
  | "MCSM2" => some MCSM2
  | "MCSM1" => some MCSM1
  | "MCSM0" => some MCSM0
  | "FOCCFG" => some FOCCFG
  | "BSCFG" => some BSCFG
  | "AGCCTRL2" => some AGCCTRL2
  | "AGCCTRL1" => some AGCCTRL1
  | "AGCCTRL0" => some AGCCTRL0
  | "WOREVT1" => some WOREVT1
  | "WOREVT0" => some WOREVT0
  | "WORCTRL" => some WORCTRL
  | "FREND1" => some FREND1
  | "FREND0" => some FREND0
  | "FSCAL3" => some FSCAL3
  | "FSCAL2" => some FSCAL2
  | "FSCAL1" => some FSCAL1
  | "FSCAL0" => some FSCAL0
  | "RCCTRL1" => some RCCTRL1
  | "RCCTRL0" => some RCCTRL0
  | "FSTEST" => some FSTEST
  | "PTEST" => some PTEST
  | "AGCTEST" => some AGCTEST
  | "TEST2" => some TEST2
  | "TEST1" => some TEST1
  | "TEST0" => some TEST0
  | _ => none

/-- An argument to `_get_address`: a Python int, a string, or a value of
any other type (`None`, a float, a list, ... are all rejected identically
by the source's type check, so one constructor stands for them). -/
inductive AddrRef where
  | int (n : Int)
  | str (s : String)
  | otherType
deriving DecidableEq, Repr

/-- Embeds `CCBase._get_address` (base.py lines 156-164): an int is
returned unchanged — the source has no range check — a string is resolved
with `getattr(self, s)`, and anything else raises
`ValueError("Unexpected address type '%s'")`.  For names in the CCAddr
address table `getattr` yields the table's value; for any other name the
source may yield an instance attribute, a bound method, or raise
`AttributeError`, which the embedding leaves unmodelled behind the
`attributeOutsideTable` marker (see `Exc`) — no theorem relies on that
branch. -/
def get_address (ref : AddrRef) : Except Exc Int :=
  match ref with
  | .int n => .ok n
  | .str s =>
    match ccAttr s with
    | some v => .ok (v : Int)
    | none => .error (.attributeOutsideTable s)
  | .otherType => .error (.valueError "Unexpected address type")

/-- One `self.spi.xfer(data)`: performs the exchange, records the sent
bytes in the trace, and returns the response. -/
def spi_xfer (bus : Bus) (data : List Nat) : CCM (List Nat) := fun st =>
  let r := bus.xfer st.regs data
  (.ok r.1, ⟨r.2, st.trace ++ [data]⟩)

/-- Python list indexing `l[i]` for a nonnegative index: `IndexError` when
out of range. -/
def pyIdx {α : Type} (l : List α) (i : Nat) : Except Exc α :=
  match l[i]? with
  | some v => .ok v
  | none => .error .indexError

/-- Embeds `CCBase.read_byte`:
`self.spi.xfer([self.READ_SINGLE_BYTE | addr, 0x00])[1]`.  Every reachable
call resolves a nonnegative address, so `Int.toNat` on the result of
`_get_address` is exact. -/
def read_byte (bus : Bus) (name : AddrRef) : CCM Nat :=
  bindM (liftE (get_address name)) (fun addr =>
  bindM (spi_xfer bus [READ_SINGLE_BYTE ||| addr.toNat, 0x00]) (fun resp =>
  liftE (pyIdx resp 1)))

/-- Embeds `CCBase.write_byte`:
`self.spi.xfer([self.WRITE_SINGLE_BYTE | addr, byte])`. -/
def write_byte (bus : Bus) (name : AddrRef) (byte : Nat) : CCM (List Nat) :=
  bindM (liftE (get_address name)) (fun addr =>
  spi_xfer bus [WRITE_SINGLE_BYTE ||| addr.toNat, byte])

/-- Embeds `CCBase.read_burst`, including the source's `+8`-per-byte
address stride combined with the burst-read bit, and the `[1:]` slice of
the response. -/
def read_burst (bus : Bus) (name : AddrRef) (length : Nat) : CCM (List Nat) :=
  bindM (liftE (get_address name)) (fun addr =>
  bindM (spi_xfer bus ((List.range (length + 1)).map
    (fun x => (addr.toNat + x * 8) ||| READ_BURST))) (fun resp =>
  ret (resp.drop 1)))

/-- Embeds `CCBase.write_burst` (base.py lines 70-75).  The body's first
statement is `addr = self._get_address(name)` — but the parameter is named
`address`, and no `name` is bound in the function or any enclosing scope of
`base.py`, so evaluating `name` raises `NameError` before any bus exchange.
The embedding reproduces that unbound read as its first step; the rest of
the body (never reachable) follows it unchanged. -/
def write_burst (bus : Bus) (address : AddrRef) (data : List Nat) : CCM (List Nat) :=
  bindM (raise Exc.nameError) (fun (name : AddrRef) =>
  bindM (liftE (get_address name)) (fun addr =>
  spi_xfer bus ((WRITE_BURST ||| addr.toNat) :: data)))

/-- Embeds `CCBase.strobe`: `self.spi.xfer([addr, 0x00])`. -/
def strobe (bus : Bus) (addr : AddrRef) : CCM (List Nat) :=
  bindM (liftE (get_address addr)) (fun a =>
  spi_xfer bus [a.toNat, 0x00])

/-- `cmd_delay` is `time.sleep`: no observable effect in the model. -/
def cmd_delay (_useconds : Nat) : CCM Unit := ret ()

/-- Embeds `CCBase.marcstate`: `read_byte(self.MARCSTATE) & 0x1F`. -/
def marcstate (bus : Bus) : CCM Nat :=
  bindM (read_byte bus (.int (MARCSTATE : Int))) (fun b => ret (b &&& 0x1F))

def flush_rx_fifo (bus : Bus) : CCM Unit :=
  bindM (strobe bus (.int (SFRX : Int))) (fun _ => ret ())

def flush_tx_fifo (bus : Bus) : CCM Unit :=
  bindM (strobe bus (.int (SFTX : Int))) (fun _ => ret ())

def enable_tx (bus : Bus) : CCM Unit :=
  bindM (strobe bus (.int (STX : Int))) (fun _ => cmd_delay 2)

def enable_rx (bus : Bus) : CCM Unit :=
  bindM (strobe bus (.int (SRX : Int))) (fun _ => cmd_delay 2)

/-- The polling loop `while (self.read_byte(self.MARCSTATE) != 0x01)` of
`sidle`, bounded by fuel (the source's loop is unbounded; running out of
fuel stands for its divergence). -/
def sidle_loop (bus : Bus) (fuel : Nat) : CCM Unit :=
  bindM (read_byte bus (.int (MARCSTATE : Int))) (fun m =>
  if m ≠ 0x01 then
    match fuel with
    | 0 => raise .nonTermination
    | f + 1 => bindM (cmd_delay 10) (fun _ => sidle_loop bus f)
  else ret ())

/-- Embeds `CCBase.sidle`. -/
def sidle (bus : Bus) (fuel : Nat) : CCM Unit :=
  bindM (strobe bus (.int (SIDLE : Int))) (fun _ =>
  bindM (sidle_loop bus fuel) (fun _ =>
  bindM (strobe bus (.int (SFTX : Int))) (fun _ =>
  cmd_delay 10)))

/-! ## `cc1101.py`: the register field schema and register access -/

/-- Embeds `CC1101._register_schema`'s static dict: register name to the
ordered field dict, each field `[index, bits]`.  The source dict binds the
key `"PARTNUM"` twice (lines 790-795); as in Python, the later binding
(`{"VERSION[7:0]": [0,8]}`) is the one kept. -/
def register_schema : String → Option (List (String × (Int × Int)))
  | "IOCFG2" => some [("GDO2_INV", (1, 1)), ("GDO2_CFG[5:0]", (2, 6))]
  | "IOCFG1" => some [("GDO_DS", (0, 1)), ("GDO1_INV", (1, 1)), ("GDO1_CFG[5:0]", (2, 6))]
  | "IOCFG0" =>
    some [("TEMP_SENSOR_ENABLE", (0, 1)), ("GDO0_INF", (1, 1)), ("GDO0_CFG[5:0]", (2, 6))]
  | "FIFOTHR" =>
    some [("ADC_RETENTION", (1, 1)), ("CLOSE_IN_RX[1:0]", (2, 2)), ("FIFO_THR[3:0]", (4, 4))]
  | "SYNC1" => some [("SYNC[15:8]", (0, 8))]
  | "SYNC0" => some [("SYNC[7:0]", (0, 8))]
  | "PKTLEN" => some [("PACKET_LENGTH", (0, 8))]
  | "PKTCTRL1" =>
    some [("PQT[2:0]", (0, 3)), ("CRC_AUTOFLUSH", (4, 1)), ("APPEND_STATUS", (5, 1)),
      ("ADR_CHK[1:0]", (6, 2))]
  | "PKTCTRL0" =>
    some [("WHITE_DATA", (1, 1)), ("PKT_FORMAT[1:0]", (2, 2)), ("CRC_EN", (5, 1)),
      ("LENGTH_CONFIG[1:0]", (6, 2))]
  | "ADDR" => some [("DEVICE_ADDR[7:0]", (0, 8))]
  | "CHANNR" => some [("CHAN[7:0]", (0, 8))]
  | "FSCTRL1" => some [("FREQ_IF[4:0]", (3, 5))]
  | "FSCTRL0" => some [("FREQOFF[7:0]", (0, 8))]
  | "FREQ2" => some [("FREQ[23:22]", (0, 2)), ("FREQ[21:16]", (2, 6))]
  | "FREQ1" => some [("FREQ[15:8]", (0, 8))]
  | "FREQ0" => some [("FREQ[7:0]", (0, 8))]
  | "MDMCFG4" =>
    some [("CHANBW_E[1:0]", (0, 2)), ("CHANBW_M[1:0]", (2, 2)), ("DRATE_E[3:0]", (4, 4))]
  | "MDMCFG3" => some [("DRATE_M[7:0]", (0, 8))]
  | "MDMCFG2" =>
    some [("DEM_DCFILT_OFF", (0, 1)), ("MOD_FORMAT[2:0]", (1, 3)), ("MANCHESTER_EN", (4, 1)),
      ("SYNC_MODE[2:0]", (5, 3))]
  | "MDMCFG1" =>
    some [("FEC_EN", (0, 1)), ("NUM_PREAMBLE[2:0]", (1, 3)), ("CHANSPC_E[1:0]", (6, 1))]
  | "MDMCFG0" => some [("CHANSPC_M[7:0]", (0, 8))]
  | "DEVIATN" => some [("DEVIATION_E[2:0]", (1, 3)), ("DEVIATION_M[2:0]", (5, 3))]
  | "MCSM2" =>
    some [("RX_TIME_RSSI", (3, 1)), ("RX_TIME_QUAL", (4, 1)), ("RX_TIME[2:0]", (5, 3))]
  | "MCSM1" =>
    some [("CCA_MODE[1:0]", (2, 2)), ("RXOFF_MODE[1:0]", (4, 2)), ("TXOFF_MODE[1:0]", (6, 2))]
  | "MCSM0" =>
    some [("FS_AUTOCAL[1:0]", (2, 2)), ("PO_TIMEOUT", (4, 2)), ("PIN_CTRL_EN", (6, 1)),
      ("XOSC_FORCE_ON", (7, 1))]
  | "FOCCFG" =>
    some [("FOC_BS_CS_GATE", (2, 1)), ("FOC_PRE_K[1:0]", (3, 2)), ("FOC_POST_K", (5, 1)),
      ("FOC_LIMIT[1:0]", (6, 2))]
  | "BSCFG" =>
    some [("BS_PRE_K[1:0]", (0, 2)), ("BS_PRE_KP[1:0]", (2, 2)), ("BS_POST_KI", (4, 1)),
      ("BS_POST_KP", (5, 1)), ("BS_LIMIT[1:0]", (6, 2))]
  | "AGCCTRL2" =>
    some [("MAX_DVGA_GAIN[1:0]", (0, 2)), ("MAX_LNA_GAIN[2:0]", (2, 3)),
      ("MAGN_TARGET[2:0]", (5, 3))]
  | "AGCCTRL1" =>
    some [("AGC_LNA_PRIORITY", (1, 1)), ("CARRIER_SENSE_REL_THR[1:0]", (2, 2)),
      ("CARRIER_SENSE_ABS_THR[3:0]", (4, 4))]
  | "AGCCTRL0" =>
    some [("HYST_LEVEL[1:0]", (0, 2)), ("WAIT_TIME[1:0]", (2, 2)), ("AGC_FREEZE[1:0]", (4, 2)),
      ("FILTER_LENGTH[1:0]", (6, 2))]
  | "WOREVT1" => some [("EVENT0[15:8]", (0, 8))]
  | "WOREVT0" => some [("EVENT0[7:0]", (0, 8))]
  | "WORCTRL" =>
    some [("RC_PD", (0, 1)), ("EVENT1[2:0]", (1, 3)), ("RC_CAL", (4, 1)), ("WOR_RES", (6, 2))]
  | "FREND1" =>
    some [("LNA_CURRENT[1:0]", (0, 2)), ("LNA2MIX_CURRENT[1:0]", (2, 2)),
      ("LODIV_BUF_CURRENT_RX[1:0]", (4, 2)), ("MIX_CURRENT[1:0]", (6, 2))]
  | "FREND0" => some [("LODIV_BUF_CURRENT_TX[1:0]", (2, 2)), ("PA_POWER[2:0]", (5, 3))]
  | "FSCAL3" =>
    some [("FSCAL3[7:6]", (0, 2)), ("CHP_CURR_CAL_EN[1:0]", (2, 2)), ("FSCAL3[3:0]", (4, 4))]
  | "FSCAL2" => some [("VCO_CORE_H_EN", (2, 1)), ("FSCAL2[4:0]", (3, 5))]
  | "FSCAL1" => some [("FSCAL1[5:0]", (2, 6))]
  | "FSCAL0" => some [("FSCAL0[6:0]", (1, 7))]
  | "RCCTRL1" => some [("RCCTRL1[6:0]", (1, 7))]
  | "RCCTRL0" => some [("RCCTRL0[6:0]", (1, 7))]
  | "FSTEST" => some [("FSTEST[7:0]", (0, 8))]
  | "PTEST" => some [("PTEST[7:0]", (0, 8))]
  | "AGCTEST" => some [("AGCTEST[7:0]", (0, 8))]
  | "TEST2" => some [("TEST2[7:0]", (0, 8))]
  | "TEST1" => some [("TEST1[7:0]", (0, 8))]
  | "TEST0" =>
    some [("TEST0[7:2]", (0, 6)), ("VCO_SEL_CAL_EN", (6, 1)), ("TEST0[0]", (7, 1))]
  | "PARTNUM" => some [("VERSION[7:0]", (0, 8))]
  | "FREQEST" => some [("FREQOSS_EST", (0, 8))]
  | "LQI" => some [("CRC_OK", (0, 1)), ("LQI_EST[6:0]", (1, 7))]
  | "RSSI" => some [("RSSI", (0, 8))]
  | "MARCSTATE" => some [("MARC_STATE[4:0]", (3, 5))]
  | "WORTIME1" => some [("TIME[15:8]", (0, 8))]
  | "WORTIME0" => some [("TIME[7:0]", (0, 8))]
  | "PKTSTATUS" =>
    some [("CRC_OK", (0, 1)), ("CS", (1, 1)), ("PQT_REACHED", (2, 1)), ("CCA", (3, 1)),
      ("SFD", (4, 1)), ("GDO2", (5, 1)), ("GDO0", (7, 1))]
  | "VCO_VC_DAC" => some [("VCO_VC_DAC[7:0]", (0, 8))]
  | "TXBYTES" => some [("TXFIFO_UNDERFLOW", (0, 1)), ("NUM_TXBYTES", (1, 7))]
  | "RXBYTES" => some [("RXFIFO_UNDERFLOW", (0, 1)), ("NUM_TXBYTES", (1, 7))]
  | "RCCTRL1_STATUS" => some [("RCCTRL1_STATUS[6:0]", (1, 7))]
  | "RCCTRL0_STATUS" => some [("RCCTRL0_STATUS[6:0]", (1, 7))]
  | _ => none

/-- Python dict access `d[k]`: `KeyError` when the key is absent. -/
def dictGet {α : Type} (d : List (String × α)) (k : String) : Except Exc α :=
  match d.find? (fun p => p.1 == k) with
  | some p => .ok p.2
  | none => .error (.keyError k)

/-- Embeds `CC1101._register_value_from_byte`'s loop: extract every field
of the schema from the byte, in schema order. -/
def register_value_from_byte (byte : Nat) :
    List (String × (Int × Int)) → Except Exc (List (String × Nat))
  | [] => .ok []
  | (k, sch) :: rest =>
    match byte_bit_value byte sch with
    | .error e => .error e
    | .ok v =>
      match register_value_from_byte byte rest with
      | .error e => .error e
      | .ok d => .ok ((k, v) :: d)

/-- Embeds `CC1101.register_value`: read the register byte by name, then
decode it through the schema (`_register_schema` raises `ValueError` for
an unknown register). -/
def register_value (bus : Bus) (name : String) : CCM (List (String × Nat)) :=
  bindM (read_byte bus (.str name)) (fun byte =>
  match register_schema name with
  | none => raise (.valueError "Register name not found")
  | some spec => liftE (register_value_from_byte byte spec))

/-- Embeds `CC1101.register_write`: read the register byte, look up the
attribute's schema entry (`KeyError` when absent; the source's
`if not spec` guard can never fire on a two-element entry), update the
byte with `bit_into_byte`, and write it back. -/
def register_write (bus : Bus) (name attr : String) (value : BitsVal) : CCM Unit :=
  bindM (read_byte bus (.str name)) (fun byte =>
  bindM (match register_schema name with
         | none => raise (.valueError "Register name not found")
         | some spec => liftE (dictGet spec attr)) (fun sch =>
  bindM (liftE (bit_into_byte byte sch value)) (fun new_value =>
  bindM (write_byte bus (.str name) new_value) (fun _ => ret ()))))

/-! ## `cc1101.py`: packet-length mode, modulation, TX and RX -/

/-- The `modes` dict of `CC1101.packet_length`, in insertion order, each
value the bit string of the `LENGTH_CONFIG` encoding. -/
def pl_modes : List (String × List Bool) :=
  [("PKT_LEN_FIXED", [false, false]),
   ("PKT_LEN_VARIABLE", [false, true]),
   ("PKT_LEN_INFINITE", [true, false])]

/-- `for k, v in d.items(): if int(v, 2) == x: return k` — the first key
whose bit-string value encodes `x`, in insertion order. -/
def firstKey : List (String × List Bool) → Nat → Option String
  | [], _ => none
  | (k, v) :: rest, x => if bitsToNat v = x then some k else firstKey rest x

/-- The getter path of `CC1101.packet_length` (`mode=None`): decode
PKTCTRL0 and return the first mode name whose encoding matches the
`LENGTH_CONFIG[1:0]` field (or `None`). -/
def packet_length_get (bus : Bus) : CCM (Option String) :=
  bindM (register_value bus "PKTCTRL0") (fun data =>
  bindM (liftE (dictGet data "LENGTH_CONFIG[1:0]")) (fun lc =>
  ret (firstKey pl_modes lc)))

/-- Embeds `CC1101.packet_length`; the setter validates the name, writes
the `LENGTH_CONFIG` field, then re-reads through the getter (the source's
`return self.packet_length()`). -/
def packet_length (bus : Bus) (mode : Option String) : CCM (Option String) :=
  match mode with
  | none => packet_length_get bus
  | some m =>
    match pl_modes.find? (fun p => p.1 == m) with
    | none => raise (.valueError "Unknown packet mode")
    | some p =>
      bindM (register_write bus "PKTCTRL0" "LENGTH_CONFIG[1:0]" (.str p.2)) (fun _ =>
      packet_length_get bus)

/-- The `schemes` dict of `CC1101.modulation`, in insertion order: note
`"ASK"` and `"OOK"` share the encoding `011`, with `"ASK"` first. -/
def schemes : List (String × List Bool) :=
  [("2-FSK", [false, false, false]),
   ("GFSK", [false, false, true]),
   ("ASK", [false, true, true]),
   ("OOK", [false, true, true]),
   ("4-FSK", [true, false, false]),
   ("MSK", [true, true, true])]

/-- The getter path of `CC1101.modulation` (`modulation=None`): decode
MDMCFG2 and return the first scheme name whose encoding matches the
`MOD_FORMAT[2:0]` field (or `None`). -/
def modulation_get (bus : Bus) : CCM (Option String) :=
  bindM (register_value bus "MDMCFG2") (fun data =>
  bindM (liftE (dictGet data "MOD_FORMAT[2:0]")) (fun mf =>
  ret (firstKey schemes mf)))

/-- Embeds `CC1101.modulation`.  The setter validates the name (line 197),
performs the `register_value("MDMCFG2")` read of line 200 (whose result the
set path never uses), writes the `MOD_FORMAT` bit string through
`register_write`, and re-reads through the getter (the source's
`return self.modulation()`). -/
def modulation (bus : Bus) (mod : Option String) : CCM (Option String) :=
  match mod with
  | none => modulation_get bus
  | some m =>
    match schemes.find? (fun p => p.1 == m) with
    | none => raise (.valueError "Unknown modulation type")
    | some p =>
      bindM (register_value bus "MDMCFG2") (fun _data =>
      bindM (register_write bus "MDMCFG2" "MOD_FORMAT[2:0]" (.str p.2)) (fun _ =>
      modulation_get bus))

/-- What Python's `recv_data` can return: a byte list, `False`, or `None`
(the fall-through when no data is pending). -/
inductive RecvRet where
  | data (l : List Nat)
  | retFalse
  | retNone
deriving DecidableEq, Repr

/-- Lines 483-487 of `recv_data`, shared by the FIXED and VARIABLE paths:
burst-read `data_len` bytes from the RX FIFO, flush it, go idle, return
the data. -/
def recv_finish (bus : Bus) (fuel : Nat) (data_len : Nat) : CCM RecvRet :=
  bindM (read_burst bus (.int (RXFIFO : Int)) data_len) (fun d =>
  bindM (flush_rx_fifo bus) (fun _ =>
  bindM (sidle bus fuel) (fun _ =>
  ret (.data d))))

/-- Embeds `CC1101.recv_data` (cc1101.py lines 459-487).  The guard is
`rx_bytes_val & 0x7F and not (rx_bytes_val & 0x80)`; when no branch of the
packet-length dispatch ran (`packet_length()` returned `None`), the
source's `data_len` is unbound and the burst-read line raises a
`NameError` (`UnboundLocalError`). -/
def recv_data (bus : Bus) (fuel : Nat) : CCM RecvRet :=
  bindM (enable_rx bus) (fun _ =>
  bindM (read_byte bus (.int (RXBYTES : Int))) (fun rx =>
  if rx &&& 0x7F ≠ 0 ∧ rx &&& 0x80 = 0 then
    bindM (packet_length bus none) (fun pl =>
    if pl = some "PKT_LEN_FIXED" then
      bindM (read_byte bus (.int (PKTLEN : Int))) (fun dl =>
      recv_finish bus fuel dl)
    else if pl = some "PKT_LEN_VARIABLE" then
      bindM (read_byte bus (.int (PKTLEN : Int))) (fun max_len =>
      bindM (read_byte bus (.int (RXFIFO : Int))) (fun dl =>
      if dl > max_len then ret .retFalse
      else recv_finish bus fuel dl))
    else if pl = some "PKT_LEN_INFINITE" then
      raise (.exception "MODE NOT IMPLEMENTED")
    else
      raise .nameError)
  else ret .retNone))

/-- The `while ((marcstate & 0x1F) != 0x0D)` TX-ready polling loop of
`send_data`, bounded by fuel (unbounded in the source). -/
def tx_ready_loop (bus : Bus) (m : Nat) (fuel : Nat) : CCM Nat :=
  if m &&& 0x1F ≠ 0x0D then
    match fuel with
    | 0 => raise .nonTermination
    | f + 1 =>
      bindM (if m = 0x11 then flush_rx_fifo bus else ret ()) (fun _ =>
      bindM (marcstate bus) (fun m2 =>
      tx_ready_loop bus m2 f))
  else ret m

/-- The `while remaining != 0` TXBYTES polling loop of `send_data`,
bounded by fuel (unbounded in the source). -/
def txbytes_loop (bus : Bus) (remaining : Nat) (fuel : Nat) : CCM Nat :=
  if remaining ≠ 0 then
    match fuel with
    | 0 => raise .nonTermination
    | f + 1 =>
      bindM (cmd_delay 100) (fun _ =>
      bindM (read_byte bus (.int (TXBYTES : Int))) (fun r =>
      txbytes_loop bus (r &&& 0x7F) f))
  else ret remaining

/-- Lines 512-536 of `send_data`: build the TX frame for the current
packet-length mode.  FIXED: bound-check against PKTLEN, optionally prepend
the device address when APPEND_STATUS is set, zero-pad to the (re-read)
PKTLEN.  VARIABLE: prepend the length byte; when APPEND_STATUS is set also
prepend the address byte after it and add 1 to the length byte.  INFINITE
raises; an unrecognized mode leaves the frame empty (`payload = []`). -/
def send_data_frame (bus : Bus) (sending_mode : Option String) (bytes : List Nat) :
    CCM (List Nat) :=
  if sending_mode = some "PKT_LEN_FIXED" then
    bindM (read_byte bus (.int (PKTLEN : Int))) (fun pl =>
    if bytes.length > pl then raise (.valueError "Payload too big.")
    else
      bindM (register_value bus "PKTCTRL1") (fun pc1 =>
      bindM (liftE (dictGet pc1 "APPEND_STATUS")) (fun ap =>
      bindM (if ap ≠ 0 then
               bindM (read_byte bus (.int (ADDR : Int))) (fun a => ret [a])
             else ret []) (fun payload0 =>
      bindM (read_byte bus (.int (PKTLEN : Int))) (fun pl2 =>
      ret ((payload0 ++ bytes) ++ List.replicate (pl2 - (payload0 ++ bytes).length) 0))))))
  else if sending_mode = some "PKT_LEN_VARIABLE" then
    bindM (register_value bus "PKTCTRL1") (fun pc1 =>
    bindM (liftE (dictGet pc1 "APPEND_STATUS")) (fun ap =>
    if ap ≠ 0 then
      bindM (read_byte bus (.int (ADDR : Int))) (fun a =>
      ret ((bytes.length + 1) :: a :: bytes))
    else ret (bytes.length :: bytes)))
  else if sending_mode = some "PKT_LEN_INFINITE" then
    raise (.exception "MODE NOT IMPLEMENTED")
  else ret []

/-- Embeds `CC1101.send_data` (cc1101.py lines 489-558).  Note the source
order: `enable_tx()` and a `marcstate()` read come first, the empty-payload
check only after them; the frame is then handed to `write_burst`, whose
body raises `NameError` on every call (see `write_burst`), so the tail of
`send_data` past that point is unreachable. -/
def send_data (bus : Bus) (fuel : Nat) (bytes : List Nat) : CCM Bool :=
  bindM (enable_tx bus) (fun _ =>
  bindM (marcstate bus) (fun m =>
  if bytes.length = 0 then raise (.valueError "Must include payload")
  else
    bindM (tx_ready_loop bus m fuel) (fun _ =>
    bindM (packet_length bus none) (fun sending_mode =>
    bindM (send_data_frame bus sending_mode bytes) (fun payload =>
    bindM (write_burst bus (.int (TXFIFO : Int)) payload) (fun _ =>
    bindM (cmd_delay 2000) (fun _ =>
    bindM (enable_tx bus) (fun _ =>
    bindM (marcstate bus) (fun m2 =>
    if m2 ∉ [0x13, 0x14, 0x15] then
      bindM (sidle bus fuel) (fun _ =>
      bindM (flush_tx_fifo bus) (fun _ =>
      bindM (enable_rx bus) (fun _ =>
      ret false)))
    else
      bindM (read_byte bus (.int (TXBYTES : Int))) (fun t =>
      bindM (txbytes_loop bus (t &&& 0x7F) fuel) (fun _ =>
      bindM (read_byte bus (.int (TXBYTES : Int))) (fun t2 =>
      ret ((t2 &&& 0x07) == 0)))))))))))))

/-! ## Concrete buses for single scenarios -/

/-- A bus with a fixed response function and no chip-state change: the
simplest environment for one-shot read scenarios. -/
def constBus (resp : List Nat → List Nat) : Bus :=
  ⟨fun s d => (resp d, s)⟩

/-- Chip responses for the VARIABLE-mode TX scenario with APPEND_STATUS
clear: MARCSTATE reads back TX-ready (0x0D), PKTCTRL0 reads back
LENGTH_CONFIG = 01 (VARIABLE), PKTCTRL1 reads back 0. -/
def respVarA : List Nat → List Nat := fun d =>
  if d = [0xF5, 0x00] then [0x00, 0x0D]
  else if d = [0x88, 0x00] then [0x00, 0x01]
  else if d = [0x87, 0x00] then [0x00, 0x00]
  else if d = [0x89, 0x00] then [0x00, 0x05]
  else [0x00, 0x00]

/-- The same chip with APPEND_STATUS set (PKTCTRL1 = 0x04) and device
address ADDR = 0x05. -/
def respVarB : List Nat → List Nat := fun d =>
  if d = [0xF5, 0x00] then [0x00, 0x0D]
  else if d = [0x88, 0x00] then [0x00, 0x01]
  else if d = [0x87, 0x00] then [0x00, 0x04]
  else if d = [0x89, 0x00] then [0x00, 0x05]
  else [0x00, 0x00]

/-- An initial driver state: zeroed chip registers, empty trace. -/
def st0 : CCSt := ⟨fun _ => 0, []⟩

/-- A FIXED-mode chip (PKTCTRL0 = 0x00) whose configured PKTLEN is 1. -/
def respFix : List Nat → List Nat := fun d =>
  if d = [0xF5, 0x00] then [0x00, 0x0D]
  else if d = [0x88, 0x00] then [0x00, 0x00]
  else if d = [0x86, 0x00] then [0x00, 0x01]
  else [0x00, 0x00]

/-- A VARIABLE-mode chip reporting one pending RX byte, PKTLEN 2, and an
RX-FIFO length byte of 9. -/
def respRxVar : List Nat → List Nat := fun d =>
  if d = [0xFB, 0x00] then [0x00, 0x01]
  else if d = [0x88, 0x00] then [0x00, 0x01]
  else if d = [0x86, 0x00] then [0x00, 0x02]
  else if d = [0xBF, 0x00] then [0x00, 0x09]
  else [0x00, 0x00]

/-- A chip whose every response is `[0, 0]` — in particular RXBYTES reads
back 0, so no data is pending. -/
def respZero : List Nat → List Nat := fun _ => [0x00, 0x00]

/-- A one-register model device: a MDMCFG2 read returns the stored byte, a
MDMCFG2 write stores the sent byte, anything else answers `[0, 0]`. -/
def memBus : Bus :=
  ⟨fun s d =>
    if d = [0x92, 0x00] then ([0x00, s MDMCFG2], s)
    else if d.length = 2 ∧ d.headD 0 = 0x12 then
      ([0x00, 0x00], fun a => if a = MDMCFG2 then d.getD 1 0 else s a)
    else ([0x00, 0x00], s)⟩

theorem lt_two_pow_binDigitsAux :
    ∀ (fuel n : Nat), n ≤ fuel → n < 2 ^ binDigitsAux fuel n := by
  intro fuel
  induction fuel with
  | zero =>
    intro n hn
    interval_cases n
    simp [binDigitsAux]
  | succ f ih =>
    intro n hn
    match n with
    | 0 => simp [binDigitsAux]
    | m + 1 =>
      have h2 : (m + 1) / 2 ≤ f := by omega
      have hrec := ih ((m + 1) / 2) h2
      show m + 1 < 2 ^ (binDigitsAux f ((m + 1) / 2) + 1)
      rw [Nat.pow_succ]
      omega

theorem binDigitsAux_le :
    ∀ (fuel n k : Nat), n ≤ fuel → n < 2 ^ k → binDigitsAux fuel n ≤ k := by
  intro fuel
  induction fuel with
  | zero =>
    intro n k hn _
    interval_cases n
    simp [binDigitsAux]
  | succ f ih =>
    intro n k hn hk
    match n with
    | 0 => simp [binDigitsAux]
    | m + 1 =>
      match k with
      | 0 =>
        have h1 : (2 : Nat) ^ 0 = 1 := rfl
        omega
      | j + 1 =>
        have h2 : (m + 1) / 2 ≤ f := by omega
        have h3 : (m + 1) / 2 < 2 ^ j := by
          have hp : (2 : Nat) ^ (j + 1) = 2 ^ j * 2 := Nat.pow_succ ..
          omega
        have hrec := ih ((m + 1) / 2) j h2 h3
        show binDigitsAux f ((m + 1) / 2) + 1 ≤ j + 1
        omega

theorem lt_binDigitsAux :
    ∀ (fuel n k : Nat), n ≤ fuel → 2 ^ k ≤ n → k < binDigitsAux fuel n := by
  intro fuel
  induction fuel with
  | zero =>
    intro n k hn hk
    have := Nat.pos_pow_of_pos k (show 0 < 2 by omega)
    omega
  | succ f ih =>
    intro n k hn hk
    have hkpos := Nat.pos_pow_of_pos k (show 0 < 2 by omega)
    match n with
    | 0 => omega
    | m + 1 =>
      match k with
      | 0 =>
        show 0 < binDigitsAux f ((m + 1) / 2) + 1
        omega
      | j + 1 =>
        have h2 : (m + 1) / 2 ≤ f := by omega
        have h3 : 2 ^ j ≤ (m + 1) / 2 := by
          have hp : (2 : Nat) ^ (j + 1) = 2 ^ j * 2 := Nat.pow_succ ..
          omega
        have hrec := ih ((m + 1) / 2) j h2 h3
        show j + 1 < binDigitsAux f ((m + 1) / 2) + 1
        omega

theorem pyBinLen_le (n w : Nat) (h1 : 1 ≤ w) (h2 : n < 2 ^ w) : pyBinLen n ≤ w := by
  unfold pyBinLen
  split
  · omega
  · exact binDigitsAux_le n n w le_rfl h2

theorem pyBinLen_le_eight (n : Nat) (h : n < 256) : pyBinLen n ≤ 8 :=
  pyBinLen_le n 8 (by omega) h

theorem eight_lt_pyBinLen (n : Nat) (h : 256 ≤ n) : 8 < pyBinLen n := by
  unfold pyBinLen
  split
  · omega
  · exact lt_binDigitsAux n n 8 le_rfl h

theorem lt_two_pow_pyBinLen (n : Nat) : n < 2 ^ pyBinLen n := by
  unfold pyBinLen
  split
  · omega
  · exact lt_two_pow_binDigitsAux n n le_rfl

theorem pyBinBits_length (n : Nat) : (pyBinBits n).length = pyBinLen n := by
  simp [pyBinBits]

theorem pyBinBits_getElem? (n t : Nat) (h : t < pyBinLen n) :
    (pyBinBits n)[t]? = some (n.testBit (pyBinLen n - 1 - t)) := by
  simp [pyBinBits, List.getElem?_range h]

theorem zfill_length (l : List Bool) (w : Nat) : (zfill l w).length = max w l.length := by
  simp [zfill]
  omega

/-- Entry `j` of `bin(x)[2:].zfill(w)` (most significant first) is bit
`w - 1 - j` of `x`, whenever the digits of `x` fit in width `w`. -/
theorem padBits_getElem? (x w j : Nat) (hlen : pyBinLen x ≤ w) (hj : j < w) :
    (zfill (pyBinBits x) w)[j]? = some (x.testBit (w - 1 - j)) := by
  have hL := pyBinBits_length x
  by_cases hcase : j < w - pyBinLen x
  · rw [zfill, List.getElem?_append_left (by simp only [List.length_replicate]; omega)]
    rw [List.getElem?_replicate, if_pos (by omega)]
    have hbit : x.testBit (w - 1 - j) = false := by
      refine Nat.testBit_lt_two_pow (lt_of_lt_of_le (lt_two_pow_pyBinLen x) ?_)
      exact Nat.pow_le_pow_right (by omega) (by omega)
    rw [hbit]
  · rw [zfill, List.getElem?_append_right (by simp only [List.length_replicate]; omega)]
    simp only [List.length_replicate, hL]
    rw [pyBinBits_getElem? x _ (by omega)]
    have hidx : pyBinLen x - 1 - (j - (w - pyBinLen x)) = w - 1 - j := by omega
    rw [hidx]

theorem bitsToNat_append (l : List Bool) (b : Bool) :
    bitsToNat (l ++ [b]) = 2 * bitsToNat l + b.toNat := by
  simp [bitsToNat, List.foldl_append]

theorem testBit_bitsToNat (l : List Bool) (k : Nat) :
    (bitsToNat l).testBit k =
      if k < l.length then l[l.length - 1 - k]?.getD false else false := by
  induction l using List.reverseRecOn generalizing k with
  | nil => simp [bitsToNat]
  | append_singleton l b ih =>
    rw [bitsToNat_append]
    match k with
    | 0 =>
      rw [Nat.testBit_zero]
      rw [if_pos (by simp)]
      have hidx : (l ++ [b]).length - 1 - 0 = l.length := by simp
      rw [hidx, List.getElem?_concat_length]
      cases b <;> simp <;> omega
    | k + 1 =>
      rw [Nat.testBit_add_one]
      have hdiv : (2 * bitsToNat l + b.toNat) / 2 = bitsToNat l := by
        cases b <;> simp <;> omega
      rw [hdiv, ih k]
      by_cases hk : k < l.length
      · rw [if_pos hk, if_pos (by simp; omega)]
        have h2 : (l ++ [b]).length - 1 - (k + 1) = l.length - 1 - k := by
          simp only [List.length_append, List.length_cons, List.length_nil]
          omega
        rw [h2, List.getElem?_append_left (by omega)]
      · rw [if_neg hk, if_neg (by simp; omega)]

theorem bitsToNat_lt (l : List Bool) : bitsToNat l < 2 ^ l.length := by
  induction l using List.reverseRecOn with
  | nil => simp [bitsToNat]
  | append_singleton l b ih =>
    rw [bitsToNat_append]
    have hp : (2 : Nat) ^ (l ++ [b]).length = 2 ^ l.length * 2 := by
      simp [Nat.pow_succ]
    rw [hp]
    cases b <;> simp <;> omega

/-! ### Behaviour of the assignment loop of `bit_into_byte` -/

theorem setLoop_ok_length :
    ∀ (idxs : List Nat) (l vb r : List Bool) (pos : Nat),
      setLoop l pos vb idxs = .ok r → r.length = l.length := by
  intro idxs
  induction idxs with
  | nil =>
    intro l vb r pos h
    simp only [setLoop] at h
    cases h
    rfl
  | cons i rest ih =>
    intro l vb r pos h
    simp only [setLoop] at h
    split at h
    · split at h
      · have := ih (l.set (pos + i) _) vb r pos h
        simpa using this
      · cases h
    · cases h

theorem setLoop_frame :
    ∀ (idxs : List Nat) (l vb r : List Bool) (pos j : Nat),
      setLoop l pos vb idxs = .ok r → (∀ i ∈ idxs, pos + i ≠ j) → r[j]? = l[j]? := by
  intro idxs
  induction idxs with
  | nil =>
    intro l vb r pos j h _
    simp only [setLoop] at h
    cases h
    rfl
  | cons i rest ih =>
    intro l vb r pos j h hj
    simp only [setLoop] at h
    split at h
    · split at h
      · have hstep := ih (l.set (pos + i) _) vb r pos j h
          (fun t ht => hj t (List.mem_cons_of_mem i ht))
        rw [hstep, List.getElem?_set, if_neg (hj i (List.mem_cons_self i rest))]
      · cases h
    · cases h

theorem setLoop_ok :
    ∀ (idxs : List Nat) (l vb : List Bool) (pos : Nat),
      (∀ i ∈ idxs, i < vb.length ∧ pos + i < l.length) →
      ∃ r, setLoop l pos vb idxs = .ok r := by
  intro idxs
  induction idxs with
  | nil =>
    intro l vb pos _
    exact ⟨l, rfl⟩
  | cons i rest ih =>
    intro l vb pos h
    obtain ⟨h1, h2⟩ := h i (List.mem_cons_self i rest)
    obtain ⟨r, hr⟩ := ih (l.set (pos + i) vb[i]) vb pos
      (fun t ht => by
        obtain ⟨a1, a2⟩ := h t (List.mem_cons_of_mem i ht)
        exact ⟨a1, by simpa using a2⟩)
    refine ⟨r, ?_⟩
    simp only [setLoop]
    rw [dif_pos h1, if_pos h2]
    exact hr

theorem set_of_getElem? :
    ∀ {α : Type} (l : List α) (i : Nat) (a : α), l[i]? = some a → l.set i a = l := by
  intro α l
  induction l with
  | nil =>
    intro i a h
    simp at h
  | cons x xs ih =>
    intro i a h
    match i with
    | 0 =>
      simp only [List.getElem?_cons_zero, Option.some.injEq] at h
      simp [List.set, h]
    | i + 1 =>
      simp only [List.getElem?_cons_succ] at h
      simp [List.set, ih i a h]

theorem setLoop_id :
    ∀ (idxs : List Nat) (l vb : List Bool) (pos : Nat),
      (∀ i ∈ idxs, ∃ a, vb[i]? = some a ∧ l[pos + i]? = some a) →
      setLoop l pos vb idxs = .ok l := by
  intro idxs
  induction idxs with
  | nil =>
    intro l vb pos _
    rfl
  | cons i rest ih =>
    intro l vb pos h
    obtain ⟨a, hv, hl⟩ := h i (List.mem_cons_self i rest)
    obtain ⟨hvlen, hveq⟩ := List.getElem?_eq_some.mp hv
    obtain ⟨hllen, -⟩ := List.getElem?_eq_some.mp hl
    simp only [setLoop]
    rw [dif_pos hvlen, if_pos hllen]
    rw [hveq, set_of_getElem? l (pos + i) a hl]
    exact ih l vb pos (fun t ht => h t (List.mem_cons_of_mem i ht))

/-! ### The extraction normal form of `byte_bit_value` -/

theorem mask255 (w : Nat) (h1 : 1 ≤ w) (h8 : w ≤ 8) : 255 >>> (8 - w) = 2 ^ w - 1 := by
  interval_cases w <;> rfl

/-- On a byte and a valid schema, `byte_bit_value` returns
`(byte >> (8 - (index + bits))) & (2^bits - 1)`. -/
theorem bbv_eq (b i w : Nat) (hb : b < 256) (hi : i ≤ 7) (hw1 : 1 ≤ w) (hw8 : w ≤ 8)
    (hiw : i + w ≤ 8) :
    byte_bit_value b ((i : Int), (w : Int)) =
      .ok ((b >>> (8 - (i + w))) &&& (2 ^ w - 1)) := by
  have hand : ∀ x : Nat, x < 256 → x &&& 255 = x := by
    intro x hx
    refine Nat.eq_of_testBit_eq (fun k => ?_)
    rw [Nat.testBit_and, show (255 : Nat) = 2 ^ 8 - 1 from rfl,
      Nat.testBit_two_pow_sub_one]
    by_cases hk : k < 8
    · simp [hk]
    · have h256 : (256 : Nat) ≤ 2 ^ k := by
        calc (256 : Nat) = 2 ^ 8 := by norm_num
          _ ≤ 2 ^ k := Nat.pow_le_pow_right (by omega) (by omega)
      have hxk : x.testBit k = false := Nat.testBit_lt_two_pow (by omega)
      simp [hk, hxk]
  simp only [byte_bit_value]
  rw [if_neg (by omega), if_neg (by omega),
    if_neg (by have := pyBinLen_le_eight b hb; omega)]
  by_cases hsp : (i : Int) = 0 ∧ (w : Int) = 8
  · rw [if_pos hsp]
    obtain ⟨h1, h2⟩ := hsp
    have hi0 : i = 0 := by exact_mod_cast h1
    have hw0 : w = 8 := by exact_mod_cast h2
    subst hi0 hw0
    have : (8 : Nat) - (0 + 8) = 0 := rfl
    rw [this, Nat.shiftRight_zero]
    have h8 : (2 : Nat) ^ 8 - 1 = 255 := rfl
    rw [h8, hand b hb]
  · rw [if_neg hsp, if_neg (by omega)]
    have ht1 : ((8 : Int) - ((i : Int) + (w : Int))).toNat = 8 - (i + w) := by omega
    have ht2 : ((8 : Int) - ((i : Int) + (w : Int)) + (i : Int)).toNat = 8 - w := by omega
    rw [ht1, ht2, mask255 w hw1 hw8]

theorem bitsToNat_padBits (b : Nat) (hb : b < 256) :
    bitsToNat (zfill (pyBinBits b) 8) = b := by
  have hlen : (zfill (pyBinBits b) 8).length = 8 := by
    rw [zfill_length, pyBinBits_length]
    have := pyBinLen_le_eight b hb
    omega
  refine Nat.eq_of_testBit_eq (fun k => ?_)
  rw [testBit_bitsToNat, hlen]
  by_cases hk : k < 8
  · rw [if_pos hk, padBits_getElem? b 8 (8 - 1 - k) (pyBinLen_le_eight b hb) (by omega)]
    have hidx : 8 - 1 - (8 - 1 - k) = k := by omega
    rw [hidx]
    rfl
  · rw [if_neg hk]
    have h256 : (256 : Nat) ≤ 2 ^ k := by
      calc (256 : Nat) = 2 ^ 8 := by norm_num
        _ ≤ 2 ^ k := Nat.pow_le_pow_right (by omega) (by omega)
    exact (Nat.testBit_lt_two_pow (by omega)).symm

/-- `bit_into_byte` on an in-range byte and int value, with the three checks
discharged: what remains is the digit-assignment loop. -/
theorem bib_int_eq (b v : Nat) (i w : Int) (hb : b < 256) (hv : v < 256)
    (hi0 : 0 ≤ i) (hi7 : i ≤ 7) (hw1 : 1 ≤ w) (hw8 : w ≤ 8) :
    bit_into_byte b (i, w) (.int v) =
      match setLoop (zfill (pyBinBits b) 8) i.toNat (zfill (pyBinBits v) w.toNat)
          (List.range w.toNat) with
      | .error e => .error e
      | .ok final => .ok (bitsToNat final) := by
  simp only [bit_into_byte]
  rw [if_neg (by omega), if_neg (by omega),
    if_neg (by
      have h1 := pyBinLen_le_eight b hb
      have h2 := pyBinLen_le_eight v hv
      omega)]

/-- C2: for every byte value `b` and every valid field `(bitIndex, bitWidth)`
with `bitIndex + bitWidth ≤ 8`, inserting the extracted field value back into
the same byte is the identity:
`bit_into_byte(b, f, byte_bit_value(b, f)) == b`. -/
theorem extract_insert_roundtrip (b v : Nat) (i w : Int)
    (hb : b < 256) (hi0 : 0 ≤ i) (hi7 : i ≤ 7) (hw1 : 1 ≤ w) (hw8 : w ≤ 8)
    (hiw : i + w ≤ 8) (hv : byte_bit_value b (i, w) = .ok v) :
    bit_into_byte b (i, w) (.int v) = .ok b := by
  have hi : i = ((i.toNat : Nat) : Int) := by omega
  have hw : w = ((w.toNat : Nat) : Int) := by omega
  rw [hi, hw] at hv
  rw [bbv_eq b i.toNat w.toNat hb (by omega) (by omega) (by omega) (by omega)] at hv
  have hveq : v = (b >>> (8 - (i.toNat + w.toNat))) &&& (2 ^ w.toNat - 1) :=
    (Except.ok.inj hv).symm
  have hvlt : v < 2 ^ w.toNat := by
    rw [hveq]
    have hmle : (b >>> (8 - (i.toNat + w.toNat))) &&& (2 ^ w.toNat - 1) ≤ 2 ^ w.toNat - 1 :=
      Nat.and_le_right
    have hpos := Nat.pos_pow_of_pos w.toNat (show 0 < 2 by omega)
    omega
  have hv256 : v < 256 := by
    have h1 : (2 : Nat) ^ w.toNat ≤ 2 ^ 8 := Nat.pow_le_pow_right (by omega) (by omega)
    have h2 : (2 : Nat) ^ 8 = 256 := by norm_num
    omega
  rw [bib_int_eq b v i w hb hv256 hi0 hi7 hw1 hw8]
  rw [setLoop_id (List.range w.toNat) (zfill (pyBinBits b) 8)
    (zfill (pyBinBits v) w.toNat) i.toNat (fun t ht => ?_)]
  · show Except.ok (bitsToNat (zfill (pyBinBits b) 8)) = Except.ok b
    rw [bitsToNat_padBits b hb]
  · have htw : t < w.toNat := List.mem_range.mp ht
    refine ⟨b.testBit (7 - (i.toNat + t)), ?_, ?_⟩
    · rw [padBits_getElem? v w.toNat t (pyBinLen_le v w.toNat (by omega) hvlt) htw]
      rw [hveq]
      have hbit : ((b >>> (8 - (i.toNat + w.toNat))) &&& (2 ^ w.toNat - 1)).testBit
          (w.toNat - 1 - t) = b.testBit (7 - (i.toNat + t)) := by
        rw [Nat.testBit_and, Nat.testBit_shiftRight, Nat.testBit_two_pow_sub_one]
        have hd : (w.toNat - 1 - t < w.toNat) = True := by simp; omega
        have hix : 8 - (i.toNat + w.toNat) + (w.toNat - 1 - t) = 7 - (i.toNat + t) := by
          omega
        rw [hix]
        simp [show w.toNat - 1 - t < w.toNat by omega]
      rw [hbit]
    · exact padBits_getElem? b 8 (i.toNat + t) (pyBinLen_le_eight b hb) (by omega)

/-- C2 witness: extracting field (2,3) of 0x9A yields 3, and inserting 3
back returns 0x9A. -/
theorem extract_insert_roundtrip_witness :
    bit_into_byte 0x9A (2, 3) (.int 3) = .ok 0x9A :=
  extract_insert_roundtrip 0x9A 3 2 3 (by omega) (by omega) (by omega) (by omega)
    (by omega) (by omega) (by decide)

/-- C3: `bit_into_byte` only replaces the target bit range: every bit
position `j` (MSB-first) outside `[bitIndex, bitIndex + bitWidth)` of the
result equals the corresponding bit of the original byte. -/
theorem insert_frame (b v r : Nat) (i w : Int) (j : Nat)
    (hb : b < 256) (hv : v < 256) (hi0 : 0 ≤ i) (hi7 : i ≤ 7) (hw1 : 1 ≤ w)
    (hw8 : w ≤ 8) (hiw : i + w ≤ 8)
    (hr : bit_into_byte b (i, w) (.int v) = .ok r)
    (hj : j < 8) (hout : (j : Int) < i ∨ i + w ≤ (j : Int)) :
    r.testBit (7 - j) = b.testBit (7 - j) := by
  rw [bib_int_eq b v i w hb hv hi0 hi7 hw1 hw8] at hr
  cases hsl : setLoop (zfill (pyBinBits b) 8) i.toNat (zfill (pyBinBits v) w.toNat)
      (List.range w.toNat) with
  | error e => rw [hsl] at hr; cases hr
  | ok fl =>
    rw [hsl] at hr
    have hreq : r = bitsToNat fl := (Except.ok.inj hr).symm
    have horig : (zfill (pyBinBits b) 8).length = 8 := by
      rw [zfill_length, pyBinBits_length]
      have := pyBinLen_le_eight b hb
      omega
    have hfl : fl.length = 8 := by
      rw [setLoop_ok_length (List.range w.toNat) _ _ _ _ hsl, horig]
    rw [hreq, testBit_bitsToNat, hfl, if_pos (by omega)]
    have hidx : 8 - 1 - (7 - j) = j := by omega
    rw [hidx]
    rw [setLoop_frame (List.range w.toNat) _ _ _ _ j hsl (fun t ht => by
      have := List.mem_range.mp ht
      omega)]
    rw [padBits_getElem? b 8 j (pyBinLen_le_eight b hb) hj]
    rfl

/-- C3 witness: writing 0 into field (2,3) of 0xFF gives 0xC7, whose MSB
(position 0, outside the field) still equals that of 0xFF. -/
theorem insert_frame_witness :
    (0xC7 : Nat).testBit (7 - 0) = (0xFF : Nat).testBit (7 - 0) :=
  insert_frame 0xFF 0 0xC7 2 3 0 (by omega) (by omega) (by omega) (by omega)
    (by omega) (by omega) (by omega) (by decide) (by omega) (by omega)

/-- C4 counterexample: the value 2 needs two bits but the target field
(0,1) is one bit wide; contrary to the claim, `bit_into_byte` raises
nothing — it returns the byte 128 (the loop copies the most significant
digit of `10`). -/
theorem bib_no_width_check : bit_into_byte 0 (0, 1) (.int 2) = .ok 128 := by decide

/-- C4 amended: `bit_into_byte` fails with `ValueError` ("Number too big.
Not a byte value.") only when the numeric value needs more than 8 bits
(value ≥ 256); a value that fits in 8 bits is accepted — and silently
truncated — even when it needs more than `bitWidth` bits. -/
theorem bib_value_range (b : Nat) (i w : Int) (v : Nat)
    (hb : b < 256) (hi0 : 0 ≤ i) (hi7 : i ≤ 7) (hw1 : 1 ≤ w) (hw8 : w ≤ 8)
    (hiw : i + w ≤ 8) :
    (256 ≤ v → bit_into_byte b (i, w) (.int v) =
        .error (.valueError "Number too big. Not a byte value.")) ∧
    (v < 256 → ∃ r, bit_into_byte b (i, w) (.int v) = .ok r) := by
  constructor
  · intro h256
    simp only [bit_into_byte]
    rw [if_neg (by omega), if_neg (by omega),
      if_pos (Or.inr (by have := eight_lt_pyBinLen v h256; omega))]
  · intro hv
    rw [bib_int_eq b v i w hb hv hi0 hi7 hw1 hw8]
    obtain ⟨r, hrr⟩ := setLoop_ok (List.range w.toNat) (zfill (pyBinBits b) 8)
      (zfill (pyBinBits v) w.toNat) i.toNat (fun t ht => by
        have htw := List.mem_range.mp ht
        constructor
        · rw [zfill_length]
          omega
        · rw [zfill_length, pyBinBits_length]
          have := pyBinLen_le_eight b hb
          omega)
    exact ⟨bitsToNat r, by rw [hrr]⟩

/-- C4 witness: with byte 0 and field (0,1), value 300 raises the
"too big" ValueError while the two-bit value 2 is accepted. -/
theorem bib_value_range_witness :
    (bit_into_byte 0 (0, 1) (.int 300) =
      .error (.valueError "Number too big. Not a byte value.")) ∧
    (∃ r, bit_into_byte 0 (0, 1) (.int 2) = .ok r) :=
  ⟨(bib_value_range 0 0 1 300 (by omega) (by omega) (by omega) (by omega)
      (by omega) (by omega)).1 (by omega),
   (bib_value_range 0 0 1 2 (by omega) (by omega) (by omega) (by omega)
      (by omega) (by omega)).2 (by omega)⟩

/-- C5: on a byte and a valid schema `byte_bit_value` returns
`(b >> shift) & mask` for `shift = 8 - (index + bits)` and
`mask = (1 << bits) - 1`; every out-of-range schema raises `ValueError`
(a bad index, bad width, or a width reaching past the byte's end, the last
via Python's negative-shift error); and the two literal regression cases
hold. -/
theorem bbv_spec :
    (∀ (b : Nat) (i w : Int), b < 256 → 0 ≤ i → i ≤ 7 → 1 ≤ w → w ≤ 8 → i + w ≤ 8 →
        byte_bit_value b (i, w) =
          .ok ((b >>> (8 - (i + w)).toNat) &&& ((1 <<< w.toNat) - 1))) ∧
    (∀ (b : Nat) (i w : Int), (i < 0 ∨ 7 < i) →
        byte_bit_value b (i, w) = .error (.valueError "Schema index must be 0 thru 7")) ∧
    (∀ (b : Nat) (i w : Int), 0 ≤ i → i ≤ 7 → (w < 1 ∨ 8 < w) →
        byte_bit_value b (i, w) = .error (.valueError "Schema bits must be 1 thru 8")) ∧
    (∀ (b : Nat) (i w : Int), b < 256 → 0 ≤ i → i ≤ 7 → 1 ≤ w → w ≤ 8 → 8 < i + w →
        byte_bit_value b (i, w) = .error (.valueError "negative shift count")) ∧
    byte_bit_value 0x05 (7, 1) = .ok 1 ∧ byte_bit_value 0xFF (0, 8) = .ok 0xFF := by
  refine ⟨?_, ?_, ?_, ?_, by decide, by decide⟩
  · intro b i w hb hi0 hi7 hw1 hw8 hiw
    have hi : i = ((i.toNat : Nat) : Int) := by omega
    have hw : w = ((w.toNat : Nat) : Int) := by omega
    rw [hi, hw, bbv_eq b i.toNat w.toNat hb (by omega) (by omega) (by omega) (by omega)]
    have h1 : ((8 : Int) - (((i.toNat : Nat) : Int) + ((w.toNat : Nat) : Int))).toNat =
        8 - (i.toNat + w.toNat) := by omega
    have h2 : (((w.toNat : Nat) : Int)).toNat = w.toNat := by omega
    rw [h1, h2, Nat.one_shiftLeft]
  · intro b i w hbad
    simp only [byte_bit_value]
    rw [if_pos (by omega)]
  · intro b i w hi0 hi7 hbad
    simp only [byte_bit_value]
    rw [if_neg (by omega), if_pos (by omega)]
  · intro b i w hb hi0 hi7 hw1 hw8 hiw
    simp only [byte_bit_value]
    rw [if_neg (by omega), if_neg (by omega),
      if_neg (by have := pyBinLen_le_eight b hb; omega),
      if_neg (by rintro ⟨hz, he⟩; omega), if_pos (by omega)]

/-- C5 witness: the normal-form equation at byte 0x9A, schema (2,3), and
the three error cases at concrete out-of-range schemas. -/
theorem bbv_spec_witness :
    byte_bit_value 0x9A (2, 3) = .ok 3 ∧
    byte_bit_value 0 (-1, 3) = .error (.valueError "Schema index must be 0 thru 7") ∧
    byte_bit_value 0 (0, 9) = .error (.valueError "Schema bits must be 1 thru 8") ∧
    byte_bit_value 0 (7, 8) = .error (.valueError "negative shift count") := by
  refine ⟨?_, ?_, ?_, ?_⟩
  · rw [bbv_spec.1 0x9A 2 3 (by omega) (by omega) (by omega) (by omega) (by omega)
      (by omega)]
    decide
  · exact bbv_spec.2.1 0 (-1) 3 (by omega)
  · exact bbv_spec.2.2.1 0 0 9 (by omega) (by omega) (by omega)
  · exact bbv_spec.2.2.2.1 0 7 8 (by omega) (by omega) (by omega) (by omega)
      (by omega) (by omega)

/-! ## C1 and C6: the bus-address layer -/

/-- C1 (code bug): `write_burst` raises `NameError` on every call — its
body reads the undefined variable `name` (the parameter is `address`) — so
it performs no bus exchange at all and never transmits the claimed
`[WRITE_BURST | addr] ++ data` frame. -/
theorem write_burst_raises (bus : Bus) (a : AddrRef) (d : List Nat) (st : CCSt) :
    write_burst bus a d st = (.error .nameError, st) := rfl

/-- C6 counterexample: the integers 256 and -1 lie outside [0,255], yet
`_get_address` returns them unchanged instead of failing with an invalid
address error. -/
theorem get_address_no_range_check :
    get_address (.int 256) = .ok 256 ∧ get_address (.int (-1)) = .ok (-1) :=
  ⟨rfl, rfl⟩

/-- C6 amended: `_get_address` returns every integer unchanged — the
source has no [0,255] range check, hence no invalid-address failure — a
known register name resolves to exactly the static address table's value,
and an argument that is neither an int nor a string raises `ValueError`
(the spec's `InvalidAddressType`). -/
theorem get_address_spec :
    (∀ n : Int, get_address (.int n) = .ok n) ∧
    (∀ s v, ccAttr s = some v → get_address (.str s) = .ok (v : Int)) ∧
    get_address .otherType = .error (.valueError "Unexpected address type") := by
  refine ⟨fun n => rfl, fun s v hv => ?_, rfl⟩
  simp [get_address, hv]

/-- C6 witness: 300 passes through unchanged, "MARCSTATE" resolves to the
table value 0xF5, and a non-int, non-string argument raises `ValueError`. -/
theorem get_address_spec_witness :
    get_address (.int 300) = .ok 300 ∧
    get_address (.str "MARCSTATE") = .ok 0xF5 ∧
    get_address .otherType = .error (.valueError "Unexpected address type") :=
  ⟨get_address_spec.1 300, get_address_spec.2.1 "MARCSTATE" 0xF5 rfl,
   get_address_spec.2.2⟩

/-! ## Insert-then-extract: the written field reads back -/

theorem setLoop_append (xs ys : List Nat) (l vb : List Bool) (pos : Nat) :
    setLoop l pos vb (xs ++ ys) =
      match setLoop l pos vb xs with
      | .ok r => setLoop r pos vb ys
      | .error e => .error e := by
  induction xs generalizing l with
  | nil => rfl
  | cons i rest ih =>
    simp only [List.cons_append, setLoop]
    split
    · split
      · exact ih (l.set (pos + _) _)
      · rfl
    · rfl

/-- After running the loop over `range w`, the positions inside the target
range hold the first `w` value digits. -/
theorem setLoop_range_getElem :
    ∀ (w : Nat) (l vb r : List Bool) (pos : Nat),
      w ≤ vb.length → pos + w ≤ l.length →
      setLoop l pos vb (List.range w) = .ok r →
      ∀ t, t < w → r[pos + t]? = vb[t]? := by
  intro w
  induction w with
  | zero => intro l vb r pos _ _ _ t ht; omega
  | succ w ih =>
    intro l vb r pos hvb hl hr t ht
    rw [List.range_succ, setLoop_append] at hr
    cases hmid : setLoop l pos vb (List.range w) with
    | error e => rw [hmid] at hr; cases hr
    | ok mid =>
      rw [hmid] at hr
      have hmlen : mid.length = l.length :=
        setLoop_ok_length (List.range w) l vb mid pos hmid
      simp only [setLoop] at hr
      rw [dif_pos (by omega)] at hr
      rw [if_pos (by omega)] at hr
      have hreq : r = mid.set (pos + w) vb[w] := (Except.ok.inj hr).symm
      subst hreq
      by_cases htw : t = w
      · subst htw
        rw [List.getElem?_set, if_pos rfl, if_pos (by omega)]
        exact (List.getElem?_eq_getElem (by omega)).symm
      · rw [List.getElem?_set, if_neg (by omega)]
        exact ih l vb mid pos (by omega) (by omega) hmid t (by omega)

/-- Inserting a value that fits the field and then extracting the same
field returns the value. -/
theorem insert_extract (b v r i w : Nat) (hb : b < 256) (hvw : v < 2 ^ w)
    (hi : i ≤ 7) (hw1 : 1 ≤ w) (hiw : i + w ≤ 8)
    (hr : bit_into_byte b ((i : Int), (w : Int)) (.int v) = .ok r) :
    (r >>> (8 - (i + w))) &&& (2 ^ w - 1) = v := by
  have hw8 : w ≤ 8 := by omega
  have hv256 : v < 256 := by
    have h1 : (2 : Nat) ^ w ≤ 2 ^ 8 := Nat.pow_le_pow_right (by omega) (by omega)
    have h2 : (2 : Nat) ^ 8 = 256 := by norm_num
    omega
  rw [bib_int_eq b v (i : Int) (w : Int) hb hv256 (by omega) (by omega) (by omega)
    (by omega)] at hr
  have hti : ((i : Int)).toNat = i := by omega
  have htw : ((w : Int)).toNat = w := by omega
  rw [hti, htw] at hr
  cases hsl : setLoop (zfill (pyBinBits b) 8) i (zfill (pyBinBits v) w)
      (List.range w) with
  | error e => rw [hsl] at hr; cases hr
  | ok fl =>
    rw [hsl] at hr
    have hreq : r = bitsToNat fl := (Except.ok.inj hr).symm
    have horig : (zfill (pyBinBits b) 8).length = 8 := by
      rw [zfill_length, pyBinBits_length]
      have := pyBinLen_le_eight b hb
      omega
    have hfl : fl.length = 8 := by
      rw [setLoop_ok_length (List.range w) _ _ _ _ hsl, horig]
    have hvblen : w ≤ (zfill (pyBinBits v) w).length := by
      rw [zfill_length]
      omega
    refine Nat.eq_of_testBit_eq (fun k => ?_)
    rw [Nat.testBit_and, Nat.testBit_shiftRight, Nat.testBit_two_pow_sub_one]
    by_cases hk : k < w
    · have hin := setLoop_range_getElem w (zfill (pyBinBits b) 8)
        (zfill (pyBinBits v) w) fl i hvblen (by omega) hsl (w - 1 - k) (by omega)
      rw [padBits_getElem? v w (w - 1 - k) (pyBinLen_le v w (by omega) hvw)
        (by omega)] at hin
      have hj : i + (w - 1 - k) = 8 - 1 - (8 - (i + w) + k) := by omega
      rw [hreq, testBit_bitsToNat, hfl, if_pos (by omega), ← hj, hin]
      have hkk : w - 1 - (w - 1 - k) = k := by omega
      simp [hkk, hk]
    · have hvk : v.testBit k = false :=
        Nat.testBit_lt_two_pow (lt_of_lt_of_le hvw (Nat.pow_le_pow_right (by omega)
          (by omega)))
      simp [hk, hvk]

/-! ## Decoded register dictionaries on an arbitrary byte -/

theorem rv_PKTCTRL0 (b : Nat) (hb : b < 256) :
    register_value_from_byte b
      [("WHITE_DATA", (1, 1)), ("PKT_FORMAT[1:0]", (2, 2)), ("CRC_EN", (5, 1)),
       ("LENGTH_CONFIG[1:0]", (6, 2))] =
      .ok [("WHITE_DATA", (b >>> 6) &&& 1), ("PKT_FORMAT[1:0]", (b >>> 4) &&& 3),
        ("CRC_EN", (b >>> 2) &&& 1), ("LENGTH_CONFIG[1:0]", b &&& 3)] := by
  have h1 : byte_bit_value b (1, 1) = .ok ((b >>> 6) &&& 1) := by
    simpa using bbv_eq b 1 1 hb (by omega) (by omega) (by omega) (by omega)
  have h2 : byte_bit_value b (2, 2) = .ok ((b >>> 4) &&& 3) := by
    simpa using bbv_eq b 2 2 hb (by omega) (by omega) (by omega) (by omega)
  have h3 : byte_bit_value b (5, 1) = .ok ((b >>> 2) &&& 1) := by
    simpa using bbv_eq b 5 1 hb (by omega) (by omega) (by omega) (by omega)
  have h4 : byte_bit_value b (6, 2) = .ok (b &&& 3) := by
    simpa using bbv_eq b 6 2 hb (by omega) (by omega) (by omega) (by omega)
  simp only [register_value_from_byte, h1, h2, h3, h4]

theorem rv_PKTCTRL1 (b : Nat) (hb : b < 256) :
    register_value_from_byte b
      [("PQT[2:0]", (0, 3)), ("CRC_AUTOFLUSH", (4, 1)), ("APPEND_STATUS", (5, 1)),
       ("ADR_CHK[1:0]", (6, 2))] =
      .ok [("PQT[2:0]", (b >>> 5) &&& 7), ("CRC_AUTOFLUSH", (b >>> 3) &&& 1),
        ("APPEND_STATUS", (b >>> 2) &&& 1), ("ADR_CHK[1:0]", b &&& 3)] := by
  have h1 : byte_bit_value b (0, 3) = .ok ((b >>> 5) &&& 7) := by
    simpa using bbv_eq b 0 3 hb (by omega) (by omega) (by omega) (by omega)
  have h2 : byte_bit_value b (4, 1) = .ok ((b >>> 3) &&& 1) := by
    simpa using bbv_eq b 4 1 hb (by omega) (by omega) (by omega) (by omega)
  have h3 : byte_bit_value b (5, 1) = .ok ((b >>> 2) &&& 1) := by
    simpa using bbv_eq b 5 1 hb (by omega) (by omega) (by omega) (by omega)
  have h4 : byte_bit_value b (6, 2) = .ok (b &&& 3) := by
    simpa using bbv_eq b 6 2 hb (by omega) (by omega) (by omega) (by omega)
  simp only [register_value_from_byte, h1, h2, h3, h4]

theorem rv_MDMCFG2 (b : Nat) (hb : b < 256) :
    register_value_from_byte b
      [("DEM_DCFILT_OFF", (0, 1)), ("MOD_FORMAT[2:0]", (1, 3)), ("MANCHESTER_EN", (4, 1)),
       ("SYNC_MODE[2:0]", (5, 3))] =
      .ok [("DEM_DCFILT_OFF", (b >>> 7) &&& 1), ("MOD_FORMAT[2:0]", (b >>> 4) &&& 7),
        ("MANCHESTER_EN", (b >>> 3) &&& 1), ("SYNC_MODE[2:0]", b &&& 7)] := by
  have h1 : byte_bit_value b (0, 1) = .ok ((b >>> 7) &&& 1) := by
    simpa using bbv_eq b 0 1 hb (by omega) (by omega) (by omega) (by omega)
  have h2 : byte_bit_value b (1, 3) = .ok ((b >>> 4) &&& 7) := by
    simpa using bbv_eq b 1 3 hb (by omega) (by omega) (by omega) (by omega)
  have h3 : byte_bit_value b (4, 1) = .ok ((b >>> 3) &&& 1) := by
    simpa using bbv_eq b 4 1 hb (by omega) (by omega) (by omega) (by omega)
  have h4 : byte_bit_value b (5, 3) = .ok (b &&& 7) := by
    simpa using bbv_eq b 5 3 hb (by omega) (by omega) (by omega) (by omega)
  simp only [register_value_from_byte, h1, h2, h3, h4]

/-! ## C7: VARIABLE-mode TX framing -/

/-- C7 (code bug): in VARIABLE mode the frame `send_data` builds for the
TX FIFO is exactly the claimed one — `[0x02, 0x41, 0x42]` with
APPEND_STATUS clear, and `[0x03, 0x05, 0x41, 0x42]` with APPEND_STATUS set
and device address 0x05 — but it is never written to the FIFO:
`write_burst` raises `NameError` (see `write_burst_raises`) first, so
`send_data` errors and its trace holds no FIFO exchange, only the STX
strobe and the MARCSTATE / PKTCTRL0 / PKTCTRL1 (/ ADDR) reads. -/
theorem send_data_variable_frame :
    (send_data_frame (constBus respVarA) (some "PKT_LEN_VARIABLE") [0x41, 0x42] st0).1 =
      .ok [0x02, 0x41, 0x42] ∧
    (send_data_frame (constBus respVarB) (some "PKT_LEN_VARIABLE") [0x41, 0x42] st0).1 =
      .ok [0x03, 0x05, 0x41, 0x42] ∧
    send_data (constBus respVarA) 4 [0x41, 0x42] st0 =
      (.error .nameError,
        ⟨st0.regs, [[0x35, 0x00], [0xF5, 0x00], [0x88, 0x00], [0x87, 0x00]]⟩) ∧
    send_data (constBus respVarB) 4 [0x41, 0x42] st0 =
      (.error .nameError,
        ⟨st0.regs, [[0x35, 0x00], [0xF5, 0x00], [0x88, 0x00], [0x87, 0x00],
          [0x89, 0x00]]⟩) :=
  ⟨rfl, rfl, rfl, rfl⟩

/-! ## C8: the `send_data` error cases -/

/-- C8 counterexample: `send_data([])` does raise the empty-payload
`ValueError`, but not as its first step and not before any bus exchange:
the resulting trace shows the STX strobe (`enable_tx`) and a MARCSTATE
read were already performed when the error is raised. -/
theorem send_data_empty_not_first :
    send_data (constBus respVarA) 4 [] st0 =
      (.error (.valueError "Must include payload"),
        ⟨st0.regs, [[0x35, 0x00], [0xF5, 0x00]]⟩) := rfl

/-- When the chip already reports the TX-ready state the polling loop of
`send_data` exits at once, whatever the fuel. -/
theorem tx_ready_loop_done (bus : Bus) (m fuel : Nat) (h : m &&& 0x1F = 0x0D) :
    tx_ready_loop bus m fuel = ret m := by
  cases fuel <;> simp [tx_ready_loop, h]

/-- C8 amended: with an empty payload `send_data` raises
`ValueError("Must include payload")` — after the STX strobe and one
MARCSTATE read, not before them — on any chip state; and in FIXED mode
(`LENGTH_CONFIG` bits of PKTCTRL0 = 00) a payload longer than the
configured PKTLEN raises `ValueError("Payload too big.")`. -/
theorem send_data_errors :
    (∀ (resp : List Nat → List Nat) (st : CCSt) (fuel : Nat) (a b : Nat)
      (rest : List Nat),
      resp [0xF5, 0x00] = a :: b :: rest →
      send_data (constBus resp) fuel [] st =
        (.error (.valueError "Must include payload"),
          ⟨st.regs, st.trace ++ [[0x35, 0x00], [0xF5, 0x00]]⟩)) ∧
    (∀ (resp : List Nat → List Nat) (st : CCSt) (fuel : Nat) (s1 s2 s3 : Nat)
      (p0 L : Nat) (bytes : List Nat),
      resp [0xF5, 0x00] = [s1, 0x0D] →
      resp [0x88, 0x00] = [s2, p0] → p0 < 256 → p0 &&& 3 = 0 →
      resp [0x86, 0x00] = [s3, L] →
      bytes ≠ [] → L < bytes.length →
      (send_data (constBus resp) fuel bytes st).1 =
        .error (.valueError "Payload too big.")) := by
  constructor
  · intro resp st fuel a b rest hm
    simp [send_data, enable_tx, strobe, get_address, liftE, bindM, spi_xfer, constBus,
      marcstate, read_byte, pyIdx, ret, raise, cmd_delay, hm,
      STX, MARCSTATE, READ_SINGLE_BYTE]
  · intro resp st fuel s1 s2 s3 p0 L bytes hm hp0 hp0lt hlc hpl hbne hlen
    have h0 : bytes.length ≠ 0 := by
      simpa using fun h => hbne (List.length_eq_zero.mp h)
    have hcc0 : ccAttr "PKTCTRL0" = some PKTCTRL0 := rfl
    have hsch0 : register_schema "PKTCTRL0" =
        some [("WHITE_DATA", (1, 1)), ("PKT_FORMAT[1:0]", (2, 2)), ("CRC_EN", (5, 1)),
          ("LENGTH_CONFIG[1:0]", (6, 2))] := rfl
    have hand13 : (13 : Nat) &&& 31 = 13 := rfl
    simp [hand13, send_data, enable_tx, strobe, get_address, liftE, bindM, spi_xfer, constBus,
      marcstate, read_byte, pyIdx, ret, raise, cmd_delay, tx_ready_loop_done,
      packet_length, packet_length_get, register_value, hcc0, hsch0,
      rv_PKTCTRL0 p0 hp0lt, dictGet, firstKey, pl_modes, bitsToNat,
      send_data_frame, hm, hp0, hlc, hpl, h0, hlen,
      STX, MARCSTATE, READ_SINGLE_BYTE, PKTCTRL0, PKTLEN, SFRX,
      -Prod.mk_one_one]

/-- C8 witness: the empty payload raises after the STX strobe and the
MARCSTATE read; a 2-byte payload in FIXED mode with PKTLEN 1 raises the
payload-size error. -/
theorem send_data_errors_witness :
    send_data (constBus respVarA) 1 [] st0 =
      (.error (.valueError "Must include payload"),
        ⟨st0.regs, st0.trace ++ [[0x35, 0x00], [0xF5, 0x00]]⟩) ∧
    (send_data (constBus respFix) 1 [0x41, 0x42] st0).1 =
      .error (.valueError "Payload too big.") :=
  ⟨send_data_errors.1 respVarA st0 1 0 0x0D [] rfl,
   send_data_errors.2 respFix st0 1 0 0 0 0 1 [0x41, 0x42] rfl rfl (by omega) rfl rfl
     (by decide) (by decide)⟩

/-! ## C9: the `recv_data` guards -/

/-- C9: in VARIABLE mode, when the length byte read from the RX FIFO
exceeds the configured PKTLEN, `recv_data` returns `False` and performs no
burst read — the complete trace is the SRX strobe and the four single-byte
reads (RXBYTES, PKTCTRL0, PKTLEN, one RX-FIFO byte); and whenever the
RXBYTES byte-count field is zero or the overflow bit is set, it returns
`None` right after the RXBYTES read. -/
theorem recv_data_bounds :
    (∀ (resp : List Nat → List Nat) (st : CCSt) (fuel : Nat)
       (s1 s2 s3 s4 rx p0 mx dl : Nat),
      resp [0xFB, 0x00] = [s1, rx] →
      rx &&& 0x7F ≠ 0 → rx &&& 0x80 = 0 →
      resp [0x88, 0x00] = [s2, p0] → p0 < 256 → p0 &&& 3 = 1 →
      resp [0x86, 0x00] = [s3, mx] →
      resp [0xBF, 0x00] = [s4, dl] →
      mx < dl →
      recv_data (constBus resp) fuel st =
        (.ok .retFalse,
          ⟨st.regs, st.trace ++ [[0x34, 0x00], [0xFB, 0x00], [0x88, 0x00],
            [0x86, 0x00], [0xBF, 0x00]]⟩)) ∧
    (∀ (resp : List Nat → List Nat) (st : CCSt) (fuel : Nat) (s1 rx : Nat),
      resp [0xFB, 0x00] = [s1, rx] →
      (rx &&& 0x7F = 0 ∨ rx &&& 0x80 ≠ 0) →
      recv_data (constBus resp) fuel st =
        (.ok .retNone, ⟨st.regs, st.trace ++ [[0x34, 0x00], [0xFB, 0x00]]⟩)) := by
  constructor
  · intro resp st fuel s1 s2 s3 s4 rx p0 mx dl hrx h1 h2 hp0 hp0lt hlc hpl hfifo hgt
    have hcc0 : ccAttr "PKTCTRL0" = some PKTCTRL0 := rfl
    have hsch0 : register_schema "PKTCTRL0" =
        some [("WHITE_DATA", (1, 1)), ("PKT_FORMAT[1:0]", (2, 2)), ("CRC_EN", (5, 1)),
          ("LENGTH_CONFIG[1:0]", (6, 2))] := rfl
    simp [recv_data, enable_rx, strobe, get_address, liftE, bindM, spi_xfer, constBus,
      read_byte, pyIdx, ret, raise, cmd_delay, packet_length, packet_length_get,
      register_value, hcc0, hsch0, rv_PKTCTRL0 p0 hp0lt, dictGet, firstKey, pl_modes,
      bitsToNat, hrx, h1, h2, hp0, hlc, hpl, hfifo, hgt,
      SRX, RXBYTES, PKTLEN, RXFIFO, PKTCTRL0, READ_SINGLE_BYTE, -Prod.mk_one_one]
  · intro resp st fuel s1 rx hrx hor
    rcases hor with h | h <;>
      simp [recv_data, enable_rx, strobe, get_address, liftE, bindM, spi_xfer, constBus,
        read_byte, pyIdx, ret, raise, cmd_delay, hrx, h,
        SRX, RXBYTES, READ_SINGLE_BYTE]

/-- C9 witness: with PKTLEN 2 and a FIFO length byte of 9 the read returns
`False` after exactly the five listed exchanges; with RXBYTES 0 it returns
`None` after two. -/
theorem recv_data_bounds_witness :
    recv_data (constBus respRxVar) 1 st0 =
      (.ok .retFalse,
        ⟨st0.regs, st0.trace ++ [[0x34, 0x00], [0xFB, 0x00], [0x88, 0x00],
          [0x86, 0x00], [0xBF, 0x00]]⟩) ∧
    recv_data (constBus respZero) 1 st0 =
      (.ok .retNone, ⟨st0.regs, st0.trace ++ [[0x34, 0x00], [0xFB, 0x00]]⟩) :=
  ⟨recv_data_bounds.1 respRxVar st0 1 0 0 0 0 1 1 2 9 rfl (by decide) (by decide)
      rfl (by omega) rfl rfl rfl (by omega),
   recv_data_bounds.2 respZero st0 1 0 0 rfl (Or.inl (by decide))⟩

/-! ## C10: the modulation getter cannot answer "OOK" -/

/-- The updated byte produced by `bit_into_byte` on in-range inputs is
itself a byte. -/
theorem bit_into_byte_lt (b v r : Nat) (i w : Int) (hb : b < 256) (hv : v < 256)
    (hi0 : 0 ≤ i) (hi7 : i ≤ 7) (hw1 : 1 ≤ w) (hw8 : w ≤ 8)
    (hr : bit_into_byte b (i, w) (.int v) = .ok r) : r < 256 := by
  rw [bib_int_eq b v i w hb hv hi0 hi7 hw1 hw8] at hr
  cases hsl : setLoop (zfill (pyBinBits b) 8) i.toNat (zfill (pyBinBits v) w.toNat)
      (List.range w.toNat) with
  | error e => rw [hsl] at hr; cases hr
  | ok fl =>
    rw [hsl] at hr
    have hreq : r = bitsToNat fl := (Except.ok.inj hr).symm
    have horig : (zfill (pyBinBits b) 8).length = 8 := by
      rw [zfill_length, pyBinBits_length]
      have := pyBinLen_le_eight b hb
      omega
    have hfl : fl.length = 8 := by
      rw [setLoop_ok_length (List.range w.toNat) _ _ _ _ hsl, horig]
    have := bitsToNat_lt fl
    rw [hfl] at this
    omega

/-- C10: whenever the MOD_FORMAT field of MDMCFG2 holds 011 the modulation
getter answers "ASK" (never "OOK", which shares the encoding and sits later
in the scheme table); and setting "OOK" writes 011 into MOD_FORMAT, so
`modulation("OOK")` immediately followed by the source's re-read returns
"ASK" — set-then-get is not the identity on "OOK".  The bus is any device
on which a MDMCFG2 read returns the stored byte unchanged and a MDMCFG2
write stores the sent byte. -/
theorem modulation_ook_reads_ask :
    ∀ (bus : Bus),
      (∀ s, bus.xfer s [0x92, 0x00] = ([0x00, s MDMCFG2], s)) →
      (∀ s v, bus.xfer s [0x12, v] = ([0x00, 0x00],
        fun a => if a = MDMCFG2 then v else s a)) →
      (∀ st, st.regs MDMCFG2 < 256 → (st.regs MDMCFG2 >>> 4) &&& 7 = 3 →
        (modulation bus none st).1 = .ok (some "ASK")) ∧
      (∀ st, st.regs MDMCFG2 < 256 →
        (modulation bus (some "OOK") st).1 = .ok (some "ASK")) := by
  intro bus hr hw
  have hcc2 : ccAttr "MDMCFG2" = some MDMCFG2 := rfl
  have hsch2 : register_schema "MDMCFG2" =
      some [("DEM_DCFILT_OFF", (0, 1)), ("MOD_FORMAT[2:0]", (1, 3)),
        ("MANCHESTER_EN", (4, 1)), ("SYNC_MODE[2:0]", (5, 3))] := rfl
  constructor
  · intro st hlt hmf
    simp only [MDMCFG2] at hlt hmf
    simp [modulation, modulation_get, register_value, read_byte, get_address, bindM,
      liftE, spi_xfer, pyIdx, ret, hcc2, hsch2, hr, rv_MDMCFG2 (st.regs 18) hlt,
      dictGet, firstKey, schemes, bitsToNat, hmf, READ_SINGLE_BYTE, MDMCFG2,
      -Prod.mk_one_one]
  · intro st hlt
    simp only [MDMCFG2] at hlt
    have hstr : bit_into_byte (st.regs 18) (1, 3) (.str [false, true, true]) =
        bit_into_byte (st.regs 18) (1, 3) (.int 3) := rfl
    obtain ⟨nb, hnb⟩ :=
      (bib_value_range (st.regs 18) 1 3 3 hlt (by omega) (by omega) (by omega)
        (by omega) (by omega)).2 (by omega)
    have hnb2 : bit_into_byte (st.regs 18) (((1 : Nat) : Int), ((3 : Nat) : Int))
        (.int 3) = .ok nb := by
      rw [Nat.cast_one, Nat.cast_ofNat]
      exact hnb
    have hnblt : nb < 256 :=
      bit_into_byte_lt (st.regs 18) 3 nb 1 3 hlt (by omega) (by omega) (by omega)
        (by omega) (by omega) hnb
    have hext := insert_extract (st.regs 18) 3 nb 1 3 hlt (by omega) (by omega)
      (by omega) (by omega) hnb2
    norm_num at hext
    simp [modulation, modulation_get, register_value, register_write, read_byte,
      write_byte, get_address, bindM, liftE, spi_xfer, pyIdx, ret, hcc2, hsch2, hr, hw,
      rv_MDMCFG2 (st.regs 18) hlt, rv_MDMCFG2 nb hnblt, dictGet, firstKey, schemes,
      bitsToNat, hstr, hnb, hext, READ_SINGLE_BYTE, WRITE_SINGLE_BYTE, MDMCFG2,
      -Prod.mk_one_one]

/-- C10 witness: on the model device holding MDMCFG2 = 0x30 (MOD_FORMAT =
011), the getter answers "ASK", and `modulation("OOK")` also answers
"ASK". -/
theorem modulation_ook_reads_ask_witness :
    (modulation memBus none ⟨fun _ => 0x30, []⟩).1 = .ok (some "ASK") ∧
    (modulation memBus (some "OOK") ⟨fun _ => 0x30, []⟩).1 = .ok (some "ASK") :=
  ⟨(modulation_ook_reads_ask memBus (fun s => rfl) (fun s v => rfl)).1
      ⟨fun _ => 0x30, []⟩ (by decide) (by decide),
   (modulation_ook_reads_ask memBus (fun s => rfl) (fun s v => rfl)).2
      ⟨fun _ => 0x30, []⟩ (by decide)⟩

end Pyticc
